import Mathlib

/-!
Verification of the reclamation subsystem of the Memory-reclamation-scheme
repository against its natural-language specification.

The development is a shallow embedding of the reclamation engines:

* the IBR engine of src/ibr.cpp and src/ibrSGL.cpp (the two files share the
  same IBRManager core verbatim);
* the Hyaline engine of src/hyaline.cpp (refcount variant), whose state is the
  per-slot active-reference counter and the retirement list;
* the pointer-level retirement list of src/hyaline.cpp retire (for the
  record/acyclicity invariant) and the per-thread map of src/hyalineN.cpp;
* the Hyaline-S (HE-S) free functions of src/HyalineS_SGL.cpp and
  src/hyalineS_bonsaiTree.cpp (identical deref/retire/enter/leave bodies).

Machine integers are modelled as Int (the C++ code uses int throughout and no
scenario approaches overflow).  Stateful code is explicit state passing; every
delete performed by the code is recorded in a ghost freed list so the theorems
can speak about which objects were destroyed.
-/

namespace IBR

/-- A node managed by IBRManager (src/ibr.cpp lines 14-20): the tree payload is
irrelevant to reclamation, so only the two epoch stamps are kept alongside the
value.  birth_epoch is initialised to 0 and retire_epoch to -1 as in the
constructor defaults. -/
structure IBRNode where
  value : Int
  birth_epoch : Int
  retire_epoch : Int
deriving DecidableEq, Repr

/-- The IBRManager state (src/ibr.cpp lines 22-24 and 66-68): the global epoch,
the thread-local local_epoch of every registered thread (index = thread id,
-1 is the inactive sentinel set by end_op and at initialisation), and the
calling thread's thread-local retired_nodes list.  The ghost field freed
records every node the code deletes. -/
structure IBRState where
  global_epoch : Int
  local_epochs : List Int
  retired_nodes : List IBRNode
  freed : List IBRNode
deriving DecidableEq, Repr

/-- src/ibr.cpp lines 60-63: get_min_active_epoch returns global_epoch - 2
(the "example heuristic"); it reads no thread's local_epoch. -/
def get_min_active_epoch (s : IBRState) : Int :=
  s.global_epoch - 2

/-- src/ibr.cpp lines 47-57: clean_up walks retired_nodes and deletes every
node whose retire_epoch is below get_min_active_epoch, erasing it from the
list; the others are kept in order. -/
def clean_up (s : IBRState) : IBRState :=
  { s with
    retired_nodes :=
      s.retired_nodes.filter (fun n => ¬ n.retire_epoch < get_min_active_epoch s)
    freed :=
      s.freed ++ s.retired_nodes.filter (fun n => n.retire_epoch < get_min_active_epoch s) }

/-- src/ibr.cpp lines 26-28: start_op for thread tid samples the global epoch
into that thread's local_epoch. -/
def start_op (s : IBRState) (tid : Nat) : IBRState :=
  { s with local_epochs := s.local_epochs.set tid s.global_epoch }

/-- src/ibr.cpp lines 30-32: end_op resets the thread's local_epoch to the
inactive sentinel -1. -/
def end_op (s : IBRState) (tid : Nat) : IBRState :=
  { s with local_epochs := s.local_epochs.set tid (-1) }

/-- src/ibr.cpp lines 41-45: retire_node stamps the node's retire_epoch with
the current global epoch, appends it to the calling thread's retired_nodes,
and runs clean_up.  Nothing else is touched: in particular neither
local_epochs nor global_epoch is written. -/
def retire_node (s : IBRState) (n : IBRNode) : IBRState :=
  clean_up
    { s with retired_nodes := s.retired_nodes ++ [{ n with retire_epoch := s.global_epoch }] }

/-- A sequence of retire calls by the calling thread. -/
def retire_many (s : IBRState) (ns : List IBRNode) : IBRState :=
  ns.foldl retire_node s

/-- Modelled from the spec (the code has no such scan): the reclamation
predicate the specification states, namely that a node is safe to free iff
its retire_epoch is below every active thread's local_epoch (inactive
sentinel -1 treated as absent).  Used only to compare against what clean_up
actually does. -/
def specSafeToFree (locals : List Int) (retireEpoch : Int) : Prop :=
  ∀ e ∈ locals, e ≠ -1 → retireEpoch < e

instance (locals : List Int) (re : Int) : Decidable (specSafeToFree locals re) := by
  unfold specSafeToFree
  infer_instance

/-- The initial IBRManager state with one registered thread:
global_epoch = 0 (src/ibr.cpp line 66), local_epoch = -1 (line 67), empty
retired list (line 68). -/
def ibrInit : IBRState :=
  { global_epoch := 0, local_epochs := [-1], retired_nodes := [], freed := [] }

/-- The state used to exercise clean_up for claim C1: the global epoch has
reached 6, the one registered thread is active with local_epoch = 3, and one
node was retired at epoch 3. -/
def c1node : IBRNode :=
  { value := 7, birth_epoch := 3, retire_epoch := 3 }

/-- State for the C1 scan: see c1node. -/
def c1state : IBRState :=
  { global_epoch := 6, local_epochs := [3], retired_nodes := [c1node], freed := [] }

/-- A list of fresh nodes with values 0..k-1 (constructor defaults for the
epoch stamps), used to drive retire sequences. -/
def freshNodes (k : Nat) : List IBRNode :=
  (List.range k).map (fun i => { value := (i : Int), birth_epoch := 0, retire_epoch := -1 })

end IBR

namespace Hyaline

/-- A retirement record of the refcount variant (src/hyaline.cpp lines 8-13):
a node carries an id standing for its address, and its refCount (constructor
default 0).  The next pointer of the C++ struct is represented by the list
structure of the slot's retirement chain. -/
structure HNode where
  id : Nat
  refCount : Int
deriving DecidableEq, Repr

/-- The state of one slot of the Hyaline engine of src/hyaline.cpp
(struct Slot, lines 16-21): the active-reference counter and the retirement
list as the chain of records from head (head = first element; a record's next
pointer is the following element; an empty list is a null head).  The claims
under verification concern a single slot, so the state is one slot.  Ghost
fields: freed records the ids of every record the code deletes, swept records
the ids visited by the most recent reclamation sweep. -/
structure HState where
  refCount : Int
  chain : List HNode
  freed : List Nat
  swept : List Nat
deriving DecidableEq, Repr

/-- src/hyaline.cpp lines 28-32: enter increments the slot's refCount and
returns the current head of the retirement list as the handle (the handle is
the chain suffix starting at that record). -/
def enter (st : HState) : List HNode × HState :=
  (st.chain, { st with refCount := st.refCount + 1 })

/-- src/hyaline.cpp lines 46-54: retire links the new record to the current
head and publishes it as the new head (the CAS loop of the source, run
without interference). -/
def retire (st : HState) (n : HNode) : HState :=
  { st with chain := n :: st.chain }

/-- Retire a sequence of records in order. -/
def retireMany (st : HState) (ns : List HNode) : HState :=
  ns.foldl retire st

/-- The loop of src/hyaline.cpp lines 62-70: walk from cur until the chain
suffix equals the bound passed as handle (pointer equality of records is
suffix equality of the chain) or the end of the list; decrement each visited
record's refCount, deleting it exactly when the value before the decrement
was 1.  Returns the remaining chain (visited survivors keep their decremented
count; deleted records are dropped — in C++ they are freed memory), the ids
deleted, and the ids visited. -/
def traverseLoop (handle : List HNode) : List HNode → List HNode × List Nat × List Nat
  | [] => ([], [], [])
  | n :: rest =>
    if n :: rest = handle then (n :: rest, [], [])
    else
      let r := traverseLoop handle rest
      if n.refCount = 1 then
        (r.1, n.id :: r.2.1, n.id :: r.2.2)
      else
        ({ n with refCount := n.refCount - 1 } :: r.1, r.2.1, n.id :: r.2.2)

/-- src/hyaline.cpp lines 61-76: traverseAndReclaim re-loads the slot head,
runs the walk bounded by its handle argument, then, if the slot's refCount is
0, stores null into head (discarding whatever chain remained). -/
def traverseAndReclaim (st : HState) (handle : List HNode) : HState :=
  let r := traverseLoop handle st.chain
  let st1 : HState :=
    { st with chain := r.1, freed := st.freed ++ r.2.1, swept := r.2.2 }
  if st1.refCount = 0 then { st1 with chain := [] } else st1

/-- src/hyaline.cpp lines 35-43: leave re-loads the slot head, decrements
refCount obtaining the pre-decrement value, and if that value was 1 and the
loaded head is non-null calls traverseAndReclaim — passing the freshly loaded
head, not the handle received from enter (the handle parameter is unused by
the source). -/
def leave (st : HState) (handle : List HNode) : HState :=
  let head := st.chain
  let prev := st.refCount
  let st1 : HState := { st with refCount := st.refCount - 1 }
  if prev = 1 ∧ head ≠ [] then traverseAndReclaim st1 head else st1

/-- The empty one-slot engine: refCount 0, null head. -/
def hInit : HState :=
  { refCount := 0, chain := [], freed := [], swept := [] }

/-- The 1000 records of scenario S4, ids 1..1000, refCount at the constructor
default 0 (nothing in src/hyaline.cpp ever stores to a record's refCount
before retirement). -/
def s4nodes : List HNode :=
  (List.range 1000).map (fun i => { id := i + 1, refCount := 0 })

/-- Scenario S4 (single thread, one slot): enter, 1000 retires, one leave
with the handle returned by enter. -/
def s4run : HState :=
  let e := enter hInit
  leave (retireMany e.2 s4nodes) e.1

/-- The two-retire scenario used for claim C6: enter (handle = null head),
retire records 1 and 2, then leave with the enter handle. -/
def c6run : HState :=
  let e := enter hInit
  leave (retire (retire e.2 { id := 1, refCount := 0 }) { id := 2, refCount := 0 }) e.1

/-- Spec-side description of the records a walk over vis deletes: exactly
those whose refCount was 1 (used to state the characterisation lemma for
traverseLoop). -/
def sweepFreed (vis : List HNode) : List Nat :=
  (vis.filter (fun n => n.refCount = 1)).map (fun n => n.id)

/-- Spec-side description of the surviving visited records: refCount not 1,
decremented. -/
def sweepSurvivors (vis : List HNode) : List HNode :=
  (vis.filter (fun n => ¬ n.refCount = 1)).map
    (fun n => { n with refCount := n.refCount - 1 })

end Hyaline

namespace HyalineHeap

/-- The pointer heap behind the retirement lists of src/hyaline.cpp: every
record address (a Nat) has a next pointer (none = null).  Slot.head is the
head pointer.  This model keeps the physical next fields so that acyclicity
of the published list is a theorem rather than a modelling artefact. -/
structure Heap where
  next : Nat → Option Nat

/-- A slot's published retirement state: the heap of next pointers and the
head pointer. -/
structure PubState where
  heap : Heap
  head : Option Nat

/-- The empty slot: null head, no record linked. -/
def pubInit : PubState :=
  { heap := { next := fun _ => none }, head := none }

/-- src/hyaline.cpp lines 46-54 at the pointer level: retire writes the old
head into the record's next field and publishes the record as the new head. -/
def pubRetire (st : PubState) (n : Nat) : PubState :=
  { heap := { next := fun m => if m = n then st.head else st.heap.next m },
    head := some n }

/-- Retire a sequence of records in order. -/
def pubRetireMany (st : PubState) (ns : List Nat) : PubState :=
  ns.foldl pubRetire st

/-- Follow next pointers from a starting pointer for at most fuel steps:
some of the record list when a null pointer is reached within the fuel, none
when the fuel runs out (as it does on a cycle shorter than the fuel
allows). -/
def chainFrom (h : Heap) : Option Nat → Nat → Option (List Nat)
  | none, _ => some []
  | some _, 0 => none
  | some m, fuel + 1 => (chainFrom h (h.next m) fuel).map (fun c => m :: c)

/-- src/hyalineN.cpp lines 25-28: the simplified Hyaline of that file keeps
retired_nodes as a map from thread id to node; retire stores the node under
the calling thread's id, replacing any node already recorded for that
thread.  The map is an association list with at most one entry per key. -/
def hyalineNRetire (m : List (Nat × Nat)) (tid : Nat) (node : Nat) : List (Nat × Nat) :=
  if m.any (fun p => p.1 = tid) then
    m.map (fun p => if p.1 = tid then (tid, node) else p)
  else
    m ++ [(tid, node)]

end HyalineHeap

namespace HES

/-- A node of the Hyaline-S files (src/HyalineS_SGL.cpp lines 14-21): key,
value, per-node reference counter nRef (default 0) and the birth era
(default 0). -/
structure SNode where
  key : Int
  value : Int
  nRef : Int
  birthEra : Int
deriving DecidableEq, Repr

/-- A batch (src/HyalineS_SGL.cpp lines 24-30): the nodes, the batch
reference counter refCounter (default 0) and minBirthEra (default 0). -/
structure SBatch where
  nodes : List SNode
  refCounter : Int
  minBirthEra : Int
deriving DecidableEq, Repr

/-- src/HyalineS_SGL.cpp lines 45-49: deref loads the global era, loads the
pointer, and returns the node iff slotRefs[slot] >= era, null otherwise.  The
node's birthEra is never read. -/
def deref (globalEra : Int) (slotRefsSlot : Int) (node : SNode) : Option SNode :=
  if slotRefsSlot ≥ globalEra then some node else none

/-- src/HyalineS_SGL.cpp lines 37-39: enter increments slotRefs[slot]; the
function touches nothing else. -/
def enterS (slotRefsSlot : Int) : Int :=
  slotRefsSlot + 1

/-- src/HyalineS_SGL.cpp lines 41-43: leave decrements slotRefs[slot]; no
batch or batch counter is read or written. -/
def leaveS (slotRefsSlot : Int) : Int :=
  slotRefsSlot - 1

/-- The loop of src/HyalineS_SGL.cpp lines 51-58: for each node of the batch
in order, fetch_sub(1) on the batch's refCounter (prev = value before the
decrement) and delete the node exactly when prev = 0.  Returns the final
counter and the nodes deleted, in order. -/
def retireLoop : List SNode → Int → Int × List SNode
  | [], c => (c, [])
  | n :: rest, c =>
    let r := retireLoop rest (c - 1)
    if c = 0 then (r.1, n :: r.2) else (r.1, r.2)

/-- src/HyalineS_SGL.cpp lines 51-58: retire runs the loop on the batch.
slotRefs is never read, and refCounter is never initialised from it. -/
def retireS (b : SBatch) : SBatch × List SNode :=
  let r := retireLoop b.nodes b.refCounter
  ({ b with refCounter := r.1 }, r.2)

/-- The concrete node of scenario S5: birth era 10. -/
def s5node : SNode :=
  { key := 1, value := 1, nRef := 0, birthEra := 10 }

/-- The concrete fresh batch for claim C5: one node, refCounter and
minBirthEra at their constructor defaults 0. -/
def c5batch : SBatch :=
  { nodes := [s5node], refCounter := 0, minBirthEra := 0 }

end HES

namespace SlotBounds

/-- The outcomes an engine operation could have on its slot argument: an
in-range access, an out-of-range unchecked access (undefined behaviour in
C++), or a detected abort from a bounds check. -/
inductive SlotAccess where
  | inBounds
  | outOfBoundsUB
  | abortDetected
deriving DecidableEq, Repr

/-- What enter/leave/retire do with the slot argument in every engine:
src/hyaline.cpp lines 28-54 index std::vector<Slot> with operator[], and
src/HyalineS_SGL.cpp lines 37-43 index std::vector<std::atomic<int>> with
operator[]; neither performs any bounds check, assertion or abort, so an
out-of-range slot is an unchecked out-of-range access. -/
def slotAccessOutcome (numSlots slotId : Nat) : SlotAccess :=
  if slotId < numSlots then .inBounds else .outOfBoundsUB

end SlotBounds

/-! Helper lemmas. -/

namespace Hyaline

/-- A walk whose bound is the list it starts from stops at once. -/
theorem traverseLoop_self (h : List HNode) : traverseLoop h h = (h, [], []) := by
  cases h with
  | nil => rfl
  | cons n rest => simp [traverseLoop]

/-- leave never frees anything: the bound it hands to traverseAndReclaim is
the head it just loaded, and the walk's own reload sees the same head, so the
walk stops at its first step. -/
theorem leave_freed_eq (st : HState) (h : List HNode) : (leave st h).freed = st.freed := by
  unfold leave
  by_cases hc : st.refCount = 1 ∧ st.chain ≠ []
  · simp only [hc, if_pos]
    unfold traverseAndReclaim
    simp [traverseLoop_self]
    split <;> simp
  · simp [hc]

/-- Characterisation of the walk when the chain is the visited part followed
by the bound: every earlier suffix is strictly longer than the bound, so the
walk stops exactly at the bound, having deleted the refCount-1 records of the
visited part and decremented the others. -/
theorem traverseLoop_append (vis handle : List HNode) :
    traverseLoop handle (vis ++ handle) =
      (sweepSurvivors vis ++ handle, sweepFreed vis, vis.map (fun n => n.id)) := by
  induction vis with
  | nil => simpa [sweepSurvivors, sweepFreed] using traverseLoop_self handle
  | cons n vis ih =>
      have hne : ¬ n :: (vis ++ handle) = handle := by
        intro hEq
        have hlen := congrArg List.length hEq
        simp at hlen
        omega
      by_cases hr : n.refCount = 1
      · simp [traverseLoop, hne, ih, hr, sweepFreed, sweepSurvivors, List.filter_cons]
      · simp [traverseLoop, hne, ih, hr, sweepFreed, sweepSurvivors, List.filter_cons]

/-- Every id the walk deletes belongs to a record of the walked chain whose
refCount was exactly 1 before the decrement. -/
theorem traverseLoop_freed_spec (handle : List HNode) :
    ∀ (cur : List HNode) (i : Nat),
      i ∈ (traverseLoop handle cur).2.1 → ∃ m, m ∈ cur ∧ m.id = i ∧ m.refCount = 1 := by
  intro cur
  induction cur with
  | nil =>
      intro i h
      simp [traverseLoop] at h
  | cons n rest ih =>
      intro i h
      unfold traverseLoop at h
      by_cases hstop : n :: rest = handle
      · rw [if_pos hstop] at h
        simp at h
      · rw [if_neg hstop] at h
        by_cases hr : n.refCount = 1
        · rw [if_pos hr] at h
          rcases List.mem_cons.mp h with hEq | hMem
          · exact ⟨n, List.mem_cons_self n rest, hEq.symm, hr⟩
          · obtain ⟨m, hm, hmi, hmr⟩ := ih i hMem
            exact ⟨m, List.mem_cons_of_mem n hm, hmi, hmr⟩
        · rw [if_neg hr] at h
          obtain ⟨m, hm, hmi, hmr⟩ := ih i h
          exact ⟨m, List.mem_cons_of_mem n hm, hmi, hmr⟩

end Hyaline

namespace HyalineHeap

/-- Rewriting the next pointer of a record that a terminating walk never
visits does not change the walk. -/
theorem chainFrom_update_of_not_mem (h : Heap) (n : Nat) (v : Option Nat) :
    ∀ (fuel : Nat) (hd : Option Nat) (c : List Nat),
      chainFrom h hd fuel = some c → n ∉ c →
      chainFrom { next := fun m => if m = n then v else h.next m } hd fuel = some c := by
  intro fuel
  induction fuel with
  | zero =>
      intro hd c hc _
      cases hd with
      | none => simpa [chainFrom] using hc
      | some m => simp [chainFrom] at hc
  | succ fuel ih =>
      intro hd c hc hnm
      cases hd with
      | none => simpa [chainFrom] using hc
      | some m =>
          simp only [chainFrom, Option.map_eq_some'] at hc
          obtain ⟨c', hc', hcc⟩ := hc
          subst hcc
          have hmn : ¬ m = n := by
            intro hEq
            exact hnm (by simp [hEq])
          have hnc' : n ∉ c' := fun hmem => hnm (List.mem_cons_of_mem m hmem)
          have := ih (h.next m) c' hc' hnc'
          simp [chainFrom, hmn, this]

end HyalineHeap

/-! Claim theorems. -/

open IBR Hyaline HyalineHeap HES SlotBounds

/-- Claim C1 (code_bug evaluation): the IBR reclamation scan does not free by
the claimed predicate.  At global_epoch 6, with the one registered thread
active at local_epoch 3 and a node retired at epoch 3, clean_up frees the
node (3 < 6 - 2) even though the thread holds local_epoch 3 ≤ retire_epoch 3,
because get_min_active_epoch is the heuristic global_epoch - 2 and never
reads any thread's local_epoch. -/
theorem ibr_cleanup_frees_despite_active_epoch :
    (IBR.clean_up IBR.c1state).freed = [IBR.c1node] ∧
    IBR.c1state.local_epochs = [3] ∧
    IBR.c1node.retire_epoch = 3 ∧
    ¬ IBR.specSafeToFree IBR.c1state.local_epochs IBR.c1node.retire_epoch := by
  refine ⟨by decide, rfl, rfl, by decide⟩

/-- Claim C2 (counterexample): after 100 consecutive retires from the initial
state the global epoch is still 0; it was never incremented, whatever value
epoch_increment_frequency is taken to have. -/
theorem ibr_epoch_never_advances_counterexample :
    (IBR.retire_many IBR.ibrInit (IBR.freshNodes 100)).global_epoch = 0 := by
  rfl

/-- Claim C2 (amended): no sequence of retire calls ever changes the global
epoch; retire_node contains no fetch_add on global_epoch (none exists
anywhere in the source), so the epoch keeps whatever value the state had. -/
theorem ibr_retire_never_advances_global_epoch (s : IBR.IBRState) (ns : List IBR.IBRNode) :
    (IBR.retire_many s ns).global_epoch = s.global_epoch := by
  induction ns generalizing s with
  | nil => rfl
  | cons n ns ih => simpa [IBR.retire_many] using ih (IBR.retire_node s n)

set_option maxRecDepth 100000 in
/-- Claim C3 (code_bug evaluation): scenario S4 — one slot, enter, 1000
retires, one leave with the enter handle — destroys nothing: leave hands the
freshly loaded head (not the enter handle) to the sweep, which therefore
stops at its first record, and the subsequent head reset discards the whole
1000-record list unreclaimed. -/
theorem hyaline_s4_destroys_nothing :
    Hyaline.s4run.freed = [] ∧ Hyaline.s4run.chain = [] := by
  constructor <;> rfl

/-- Claim C4 (code_bug evaluation): deref certifies nothing about birth eras.
With the global era at 5 and seven active references on the slot, deref
returns the scenario-S5 node whose birthEra is 10, although 10 is not ≤ 5;
the comparison deref performs is slotRefs[slot] ≥ globalEra and the node's
birthEra is never read. -/
theorem hes_deref_ignores_birth_era :
    HES.deref 5 7 HES.s5node = some HES.s5node ∧
    HES.s5node.birthEra = 10 ∧
    ¬ HES.s5node.birthEra ≤ 5 := by
  refine ⟨rfl, rfl, by decide⟩

/-- Claim C5 (code_bug evaluation): retiring a fresh one-node batch (its
refCounter at the constructor default 0) deletes the node during the retire
call itself — the per-node fetch_sub sees 0 and frees — leaving the counter
at -1; retire never stores the count of active slots into refCounter, and
leave only decrements slotRefs, touching no batch counter. -/
theorem hes_retire_frees_at_retire_time :
    (HES.retireS HES.c5batch).2 = [HES.s5node] ∧
    (HES.retireS HES.c5batch).1.refCounter = -1 ∧
    (∀ r : Int, HES.leaveS r = r - 1) := by
  exact ⟨rfl, rfl, fun r => rfl⟩

/-- Claim C6 (code_bug evaluation): in the two-retire scenario, leave's
reclamation sweep visits no record at all — swept and freed are empty — and
the head reset then discards both records: the bound passed to
traverseAndReclaim is the head leave just loaded, not the handle obtained at
enter (which would have put both records in the sweep's range). -/
theorem hyaline_leave_sweeps_nothing :
    Hyaline.c6run.swept = [] ∧ Hyaline.c6run.freed = [] ∧ Hyaline.c6run.chain = [] := by
  refine ⟨rfl, rfl, rfl⟩

/-- Claim C7 (counterexample): in the simplified Hyaline of src/hyalineN.cpp,
two retires by the same thread (nodes 101 then 102), both still pending,
leave a single retirement record — the second retire overwrote the record of
node 101 in the per-thread map. -/
theorem hyalineN_second_retire_overwrites :
    HyalineHeap.hyalineNRetire (HyalineHeap.hyalineNRetire [] 0 101) 0 102 = [(0, 102)] := by
  rfl

/-- Retiring a duplicate-free sequence of records onto the empty slot yields
a published list whose pointer walk terminates after exactly the retired
records, newest first. -/
theorem pubRetireMany_chain :
    ∀ L : List Nat, L.Nodup →
      HyalineHeap.chainFrom (HyalineHeap.pubRetireMany HyalineHeap.pubInit L).heap
        (HyalineHeap.pubRetireMany HyalineHeap.pubInit L).head L.length = some L.reverse := by
  intro L
  induction L using List.reverseRecOn with
  | nil => intro _; rfl
  | append_singleton L n ih =>
      intro hnd
      have hnd' : L.Nodup := (List.nodup_append.mp hnd).1
      have hnmem : n ∉ L := fun hmem => (List.nodup_append.mp hnd).2.2 hmem (by simp)
      have hstep :
          HyalineHeap.pubRetireMany HyalineHeap.pubInit (L ++ [n]) =
            HyalineHeap.pubRetire (HyalineHeap.pubRetireMany HyalineHeap.pubInit L) n := by
        simp [HyalineHeap.pubRetireMany]
      have hupd :=
        HyalineHeap.chainFrom_update_of_not_mem
          (HyalineHeap.pubRetireMany HyalineHeap.pubInit L).heap n
          (HyalineHeap.pubRetireMany HyalineHeap.pubInit L).head L.length
          (HyalineHeap.pubRetireMany HyalineHeap.pubInit L).head L.reverse (ih hnd')
          (by simpa using hnmem)
      rw [hstep]
      simp only [HyalineHeap.pubRetire, List.length_append, List.length_cons,
        List.length_nil, Nat.zero_add, List.reverse_append, List.reverse_cons,
        List.reverse_nil, List.nil_append, List.singleton_append]
      rw [HyalineHeap.chainFrom]
      simp [hupd]

/-- Claim C7 (amended): in the list-based Hyaline engine of src/hyaline.cpp,
retiring any sequence of distinct fresh records produces exactly one record
per retire: following next pointers from the published head reaches null
after exactly the retired records, newest first, with no cycle and no
duplicate. -/
theorem hyaline_retire_records_form_acyclic_list (L : List Nat) (hnd : L.Nodup) :
    HyalineHeap.chainFrom (HyalineHeap.pubRetireMany HyalineHeap.pubInit L).heap
        (HyalineHeap.pubRetireMany HyalineHeap.pubInit L).head L.length = some L.reverse ∧
    L.reverse.Nodup :=
  ⟨pubRetireMany_chain L hnd, by simpa using hnd⟩

/-- Witness for claim C7's theorem at the concrete retire sequence 1, 2, 3. -/
theorem hyaline_retire_records_form_acyclic_list_witness :
    ([1, 2, 3] : List Nat).Nodup ∧
    (HyalineHeap.chainFrom (HyalineHeap.pubRetireMany HyalineHeap.pubInit [1, 2, 3]).heap
        (HyalineHeap.pubRetireMany HyalineHeap.pubInit [1, 2, 3]).head 3 = some [3, 2, 1] ∧
      ([1, 2, 3] : List Nat).reverse.Nodup) :=
  ⟨by decide, hyaline_retire_records_form_acyclic_list [1, 2, 3] (by decide)⟩

/-- Claim C8 (counterexample): calling an engine operation on slot 7 of a
4-slot engine is an unchecked out-of-range access of the slot vector, not a
detected abort. -/
theorem slot_out_of_range_not_aborted :
    SlotBounds.slotAccessOutcome 4 7 = SlotBounds.SlotAccess.outOfBoundsUB ∧
    SlotBounds.slotAccessOutcome 4 7 ≠ SlotBounds.SlotAccess.abortDetected := by
  refine ⟨rfl, by decide⟩

/-- Claim C8 (amended): a slot index outside the engine's slot count is not
detected by any bounds check: enter, leave and retire index the slot vector
with unchecked operator[], so the call proceeds as an out-of-range access
(undefined behaviour) and never aborts. -/
theorem slot_out_of_range_is_unchecked (numSlots slotId : Nat) (h : numSlots ≤ slotId) :
    SlotBounds.slotAccessOutcome numSlots slotId = SlotBounds.SlotAccess.outOfBoundsUB ∧
    SlotBounds.slotAccessOutcome numSlots slotId ≠ SlotBounds.SlotAccess.abortDetected := by
  have hlt : ¬ slotId < numSlots := by omega
  constructor
  · simp [SlotBounds.slotAccessOutcome, hlt]
  · simp [SlotBounds.slotAccessOutcome, hlt]

/-- Witness for claim C8's theorem at slot 7 of a 4-slot engine. -/
theorem slot_out_of_range_is_unchecked_witness :
    4 ≤ 7 ∧
    (SlotBounds.slotAccessOutcome 4 7 = SlotBounds.SlotAccess.outOfBoundsUB ∧
      SlotBounds.slotAccessOutcome 4 7 ≠ SlotBounds.SlotAccess.abortDetected) :=
  ⟨by decide, slot_out_of_range_is_unchecked 4 7 (by decide)⟩

/-- Claim C9 (confirmed): retire leaves the calling thread's activity state
unchanged — a thread that is active with local_epoch e before retire_node
still has local_epoch e afterwards, and the global epoch is unchanged too;
retire_node writes only the retired node's retire_epoch and the thread's
retired list (clean_up included). -/
theorem ibr_retire_preserves_thread_state
    (s : IBR.IBRState) (n : IBR.IBRNode) (tid : Nat) (e : Int)
    (hact : s.local_epochs.get? tid = some e) (hne : e ≠ -1) :
    (IBR.retire_node s n).local_epochs.get? tid = some e ∧
    (IBR.retire_node s n).global_epoch = s.global_epoch := by
  exact ⟨hact, rfl⟩

/-- Witness for claim C9's theorem: the one-thread engine after start_op is
active at epoch 0, and a retire preserves that. -/
theorem ibr_retire_preserves_thread_state_witness :
    (IBR.start_op IBR.ibrInit 0).local_epochs.get? 0 = some 0 ∧
    (0 : Int) ≠ -1 ∧
    ((IBR.retire_node (IBR.start_op IBR.ibrInit 0) IBR.c1node).local_epochs.get? 0 = some 0 ∧
      (IBR.retire_node (IBR.start_op IBR.ibrInit 0) IBR.c1node).global_epoch
        = (IBR.start_op IBR.ibrInit 0).global_epoch) :=
  ⟨by decide, by decide,
    ibr_retire_preserves_thread_state (IBR.start_op IBR.ibrInit 0) IBR.c1node 0 0
      (by decide) (by decide)⟩

/-- Claim C10 (confirmed): a record whose refCount still holds the
constructor default 0 when a reclamation sweep reaches it is not deleted by
the sweep — the per-record decrement sees 0, not 1, and leaves the counter
at -1 — and afterwards the record is off the retirement list without having
been freed: when the slot's refCount is 0 the head reset discards the whole
chain, and otherwise the record survives in the chain with counter -1; no
sweep ever deletes a record whose list occurrences all carry a non-positive
counter, so no later sweep can reclaim it either.  The sweep is modelled as
traverseAndReclaim applied to a chain that extends the bound by the visited
records, the situation in which the sweep reaches records at all. -/
theorem hyaline_zero_refcount_record_leaks
    (rc : Int) (vis handle chain2 handle2 : List Hyaline.HNode) (n : Hyaline.HNode)
    (hn : n.refCount = 0) (hmem : n ∈ vis)
    (hid : ∀ m ∈ vis, m.id = n.id → m = n)
    (hlater : ∀ m ∈ chain2, m.id = n.id → m.refCount ≤ 0) :
    n.id ∉ (Hyaline.traverseAndReclaim ⟨rc, vis ++ handle, [], []⟩ handle).freed ∧
    (rc = 0 → (Hyaline.traverseAndReclaim ⟨rc, vis ++ handle, [], []⟩ handle).chain = []) ∧
    (rc ≠ 0 → ({ id := n.id, refCount := -1 } : Hyaline.HNode) ∈
        (Hyaline.traverseAndReclaim ⟨rc, vis ++ handle, [], []⟩ handle).chain) ∧
    n.id ∉ (Hyaline.traverseLoop handle2 chain2).2.1 := by
  have hr := Hyaline.traverseLoop_append vis handle
  have hfreed : n.id ∉ Hyaline.sweepFreed vis := by
    intro hin
    simp only [Hyaline.sweepFreed, List.mem_map, List.mem_filter,
      decide_eq_true_eq] at hin
    obtain ⟨m, ⟨hmv, hm1⟩, hmi⟩ := hin
    have hmn := hid m hmv hmi
    rw [hmn] at hm1
    rw [hn] at hm1
    exact absurd hm1 (by decide)
  have hsurv : ({ id := n.id, refCount := -1 } : Hyaline.HNode) ∈ Hyaline.sweepSurvivors vis := by
    simp only [Hyaline.sweepSurvivors, List.mem_map, List.mem_filter,
      decide_eq_true_eq]
    refine ⟨n, ⟨hmem, ?_⟩, ?_⟩
    · simp [hn]
    · simp [hn]
  refine ⟨?_, ?_, ?_, ?_⟩
  · simp only [Hyaline.traverseAndReclaim, hr]
    split
    · simpa using hfreed
    · simpa using hfreed
  · intro hrc
    simp [Hyaline.traverseAndReclaim, hr, hrc]
  · intro hrc
    simp only [Hyaline.traverseAndReclaim, hr]
    rw [if_neg (by simpa using hrc)]
    exact List.mem_append_left handle hsurv
  · intro hin
    obtain ⟨m, hm, hmi, hm1⟩ := Hyaline.traverseLoop_freed_spec handle2 chain2 n.id hin
    have := hlater m hm hmi
    rw [hm1] at this
    exact absurd this (by decide)

/-- Witness for claim C10's theorem: a sweep over the single fresh record
with id 5 and refCount 0, bound null, slot refCount 1, with the follow-up
sweep over the decremented record. -/
theorem hyaline_zero_refcount_record_leaks_witness :
    ({ id := 5, refCount := 0 } : Hyaline.HNode).refCount = 0 ∧
    ({ id := 5, refCount := 0 } : Hyaline.HNode) ∈ [({ id := 5, refCount := 0 } : Hyaline.HNode)] ∧
    (∀ m ∈ [({ id := 5, refCount := 0 } : Hyaline.HNode)],
      m.id = ({ id := 5, refCount := 0 } : Hyaline.HNode).id →
        m = ({ id := 5, refCount := 0 } : Hyaline.HNode)) ∧
    (∀ m ∈ [({ id := 5, refCount := -1 } : Hyaline.HNode)],
      m.id = ({ id := 5, refCount := 0 } : Hyaline.HNode).id → m.refCount ≤ 0) ∧
    (({ id := 5, refCount := 0 } : Hyaline.HNode).id ∉
        (Hyaline.traverseAndReclaim ⟨1, [{ id := 5, refCount := 0 }] ++ [], [], []⟩ []).freed ∧
      ((1 : Int) = 0 →
        (Hyaline.traverseAndReclaim ⟨1, [{ id := 5, refCount := 0 }] ++ [], [], []⟩ []).chain = []) ∧
      ((1 : Int) ≠ 0 →
        ({ id := ({ id := 5, refCount := 0 } : Hyaline.HNode).id, refCount := -1 } : Hyaline.HNode) ∈
          (Hyaline.traverseAndReclaim ⟨1, [{ id := 5, refCount := 0 }] ++ [], [], []⟩ []).chain) ∧
      ({ id := 5, refCount := 0 } : Hyaline.HNode).id ∉
        (Hyaline.traverseLoop [] [{ id := 5, refCount := -1 }]).2.1) :=
  ⟨by decide, by decide, by decide, by decide,
    hyaline_zero_refcount_record_leaks 1 [{ id := 5, refCount := 0 }] [] [{ id := 5, refCount := -1 }]
      [] { id := 5, refCount := 0 } (by decide) (by decide) (by decide) (by decide)⟩
